import Mathlib

/-!
Shallow embedding of the todo CRUD backend
(`src/server/src/schema.ts`, `src/server/src/handlers/*.ts`).

A `Todo` row mirrors `todoSchema`: integer id, text title, nullable text
message body (`description`), boolean `completed`, and two timestamps
modelled as natural numbers (milliseconds since epoch).  The store is the
single `todos` table: a list of rows in insertion order, plus the serial
counter the database uses to assign ids.  Handlers that read the clock
(`new Date()`) take the current time `now` as an explicit argument.
-/

structure Todo where
  id : Int
  title : String
  description : Option String
  completed : Bool
  created_at : Nat
  updated_at : Nat
deriving DecidableEq, Repr

/-- The persistence layer: the single `todos` table (rows in insertion
order) and the serial counter used for system-assigned ids. -/
structure DB where
  rows : List Todo
  nextId : Int
deriving DecidableEq, Repr

def emptyDB : DB := { rows := [], nextId := 1 }

/-- Shape of `createTodoInputSchema` from `src/server/src/schema.ts`:
`title: z.string().min(1)`, `description: z.string().nullable()`. -/
structure CreateTodoInput where
  title : String
  description : Option String
deriving DecidableEq, Repr

/-- Shape of `updateTodoInputSchema` from `src/server/src/schema.ts`.
Here `none` in an optional field means the key is absent (`undefined`);
`some none` for `description` means the key is present with value `null`. -/
structure UpdateTodoInput where
  id : Int
  title : Option String
  description : Option (Option String)
  completed : Option Bool
deriving DecidableEq, Repr

structure DeleteTodoInput where
  id : Int
deriving DecidableEq, Repr

structure GetTodoInput where
  id : Int
deriving DecidableEq, Repr

/-- The `.min(1, "Title is required")` check of `createTodoInputSchema`:
the parse succeeds iff the title has length at least 1. -/
def createTodoInputSchema (i : CreateTodoInput) : Bool :=
  decide (1 ≤ i.title.length)

/-- The checks of `updateTodoInputSchema`: `title` is optional, but when
the key is present its value must have length at least 1. -/
def updateTodoInputSchema (i : UpdateTodoInput) : Bool :=
  match i.title with
  | none => true
  | some s => decide (1 ≤ s.length)

/-- The `updateData` object built by `updateTodo`
(`src/server/src/handlers/update_todo.ts`): `updated_at` is always set to
the current time; `title`, `description` and `completed` are copied from
the input only when the corresponding key was provided
(`input.x !== undefined`). -/
def applyUpdate (input : UpdateTodoInput) (now : Nat) (t : Todo) : Todo :=
  { t with
    updated_at := now
    title := match input.title with
      | none => t.title
      | some s => s
    description := match input.description with
      | none => t.description
      | some d => d
    completed := match input.completed with
      | none => t.completed
      | some b => b }

/-- Handler `updateTodo` (`src/server/src/handlers/update_todo.ts`):
`UPDATE todos SET updateData WHERE id = input.id RETURNING *` applies
`updateData` to every row whose id matches and returns those rows; the
handler returns `result[0]` when the list is non-empty and `null`
otherwise.  The pair is (returned value, store afterwards). -/
def updateTodo (input : UpdateTodoInput) (now : Nat) (db : DB) :
    Option Todo × DB :=
  let rows := db.rows.map (fun t =>
    if t.id = input.id then applyUpdate input now t else t)
  let returned := rows.filter (fun t => t.id = input.id)
  (returned.head?, { db with rows := rows })

/-- Handler `deleteTodo` (`src/server/src/handlers/delete_todo.ts`):
`DELETE FROM todos WHERE id = input.id RETURNING *` removes every row
whose id matches and returns those rows; the handler returns
`result.length > 0`. -/
def deleteTodo (input : DeleteTodoInput) (db : DB) : Bool × DB :=
  let removed := db.rows.filter (fun t => t.id = input.id)
  let rows := db.rows.filter (fun t => ¬ t.id = input.id)
  (decide (0 < removed.length), { db with rows := rows })

/-- The descending-by-`created_at` order used by `getTodos`:
`orderBy(desc(todosTable.created_at))`. -/
def createdAtGe (a b : Todo) : Prop := b.created_at ≤ a.created_at

instance : DecidableRel createdAtGe :=
  fun a b => decidable_of_iff (b.created_at ≤ a.created_at) Iff.rfl

/-- Handler `getTodos` (`src/server/src/handlers/get_todos.ts`): select all rows
ordered by `created_at` descending (newest first). -/
def getTodos (db : DB) : List Todo :=
  List.insertionSort createdAtGe db.rows

/-- Modelled from the spec: the real `getTodo` handler is missing from the
sources (`src/unnamed/part_000` holds only its placeholder declaration; its
tests are in `src/server/src/tests/get_todo.test.ts`).  Spec 4.2: "look up
the row with matching id.  Output: the row if present, otherwise an
explicit not-found result (a null sentinel, not an error).  No side
effects." -/
def getTodo (input : GetTodoInput) (db : DB) : Option Todo :=
  db.rows.find? (fun t => decide (t.id = input.id))

/-- Modelled from the spec: the real `createTodo` handler is missing from
the sources (`src/server/src/handlers/create_todo.ts` holds only its
placeholder declaration; its tests are in `src/unnamed/part_001`).
Spec 4.1: "persist a new row with `completed = false`, system-assigned
`id`, and `created_at = updated_at = now`.  Output: the full persisted
row."  The id is the store's serial counter, which then advances. -/
def createTodo (input : CreateTodoInput) (now : Nat) (db : DB) :
    Todo × DB :=
  let t : Todo :=
    { id := db.nextId
      title := input.title
      description := input.description
      completed := false
      created_at := now
      updated_at := now }
  (t, { rows := db.rows ++ [t], nextId := db.nextId + 1 })

/-- Store well-formedness: every persisted id is below the serial counter,
and the ids are pairwise distinct (the table's primary-key constraint). -/
def DB.WF (db : DB) : Prop :=
  (∀ t ∈ db.rows, t.id < db.nextId) ∧ (db.rows.map Todo.id).Nodup

/-- Store states reachable from the empty store through the handlers. -/
inductive Reachable : DB → Prop
  | empty : Reachable emptyDB
  | create (i : CreateTodoInput) (now : Nat) {db : DB} :
      Reachable db → Reachable (createTodo i now db).2
  | update (i : UpdateTodoInput) (now : Nat) {db : DB} :
      Reachable db → Reachable (updateTodo i now db).2
  | delete (i : DeleteTodoInput) {db : DB} :
      Reachable db → Reachable (deleteTodo i db).2

/-- Invariant from spec 3: no persisted row has an empty title. -/
def NoEmptyTitles (db : DB) : Prop :=
  ∀ t ∈ db.rows, t.title ≠ ""

/-! ## Helper lemmas -/

theorem applyUpdate_id (input : UpdateTodoInput) (now : Nat) (t : Todo) :
    (applyUpdate input now t).id = t.id := rfl

theorem applyUpdate_created_at (input : UpdateTodoInput) (now : Nat)
    (t : Todo) : (applyUpdate input now t).created_at = t.created_at := rfl

theorem applyUpdate_updated_at (input : UpdateTodoInput) (now : Nat)
    (t : Todo) : (applyUpdate input now t).updated_at = now := rfl

/-- The row `updateTodo` returns is the first stored row whose id matches,
with the partial update applied. -/
theorem updateTodo_fst (input : UpdateTodoInput) (now : Nat) (db : DB) :
    (updateTodo input now db).1 =
      (db.rows.find? (fun t => decide (t.id = input.id))).map
        (applyUpdate input now) := by
  show (List.filter _ (db.rows.map _)).head? = _
  induction db.rows with
  | nil => rfl
  | cons a l ih =>
    by_cases h : a.id = input.id
    · simp [h, applyUpdate, List.find?_cons]
    · simpa [h, List.find?_cons] using ih

/-- The store after `updateTodo`: each matching row gets the update, each
other row is untouched. -/
theorem updateTodo_snd (input : UpdateTodoInput) (now : Nat) (db : DB) :
    (updateTodo input now db).2.rows =
      db.rows.map (fun t =>
        if t.id = input.id then applyUpdate input now t else t) := rfl

theorem updateTodo_nextId (input : UpdateTodoInput) (now : Nat) (db : DB) :
    (updateTodo input now db).2.nextId = db.nextId := rfl

theorem deleteTodo_fst (input : DeleteTodoInput) (db : DB) :
    (deleteTodo input db).1 = true ↔ ∃ t ∈ db.rows, t.id = input.id := by
  show decide (0 < (db.rows.filter _).length) = true ↔ _
  rw [decide_eq_true_iff, List.length_pos, Ne, List.filter_eq_nil_iff]
  push_neg
  simp

theorem deleteTodo_snd (input : DeleteTodoInput) (db : DB) :
    (deleteTodo input db).2.rows =
      db.rows.filter (fun t => decide (¬ t.id = input.id)) := rfl

theorem deleteTodo_nextId (input : DeleteTodoInput) (db : DB) :
    (deleteTodo input db).2.nextId = db.nextId := rfl

theorem createTodo_fst (input : CreateTodoInput) (now : Nat) (db : DB) :
    (createTodo input now db).1 =
      { id := db.nextId, title := input.title
        description := input.description, completed := false
        created_at := now, updated_at := now } := rfl

theorem createTodo_snd_rows (input : CreateTodoInput) (now : Nat)
    (db : DB) : (createTodo input now db).2.rows =
      db.rows ++ [(createTodo input now db).1] := rfl

theorem createTodo_snd_nextId (input : CreateTodoInput) (now : Nat)
    (db : DB) : (createTodo input now db).2.nextId = db.nextId + 1 := rfl

/-- Updating never changes the list of stored ids (`id` is immutable:
it is not a key of `updateData`). -/
theorem updateTodo_map_id (input : UpdateTodoInput) (now : Nat) (db : DB) :
    (updateTodo input now db).2.rows.map Todo.id = db.rows.map Todo.id := by
  rw [updateTodo_snd, List.map_map]
  apply List.map_congr_left
  intro t _
  by_cases h : t.id = input.id <;> simp [h, applyUpdate_id]

theorem WF_empty : emptyDB.WF := by
  constructor <;> simp [emptyDB]

theorem WF_update (input : UpdateTodoInput) (now : Nat) {db : DB}
    (hwf : db.WF) : (updateTodo input now db).2.WF := by
  obtain ⟨hb, hn⟩ := hwf
  constructor
  · intro t ht
    rw [updateTodo_snd] at ht
    rw [updateTodo_nextId]
    obtain ⟨s, hs, rfl⟩ := List.mem_map.mp ht
    have hid : (if s.id = input.id then applyUpdate input now s else s).id
        = s.id := by
      by_cases h : s.id = input.id <;> simp [h, applyUpdate_id]
    rw [hid]
    exact hb s hs
  · rw [updateTodo_map_id]
    exact hn

theorem WF_delete (input : DeleteTodoInput) {db : DB} (hwf : db.WF) :
    (deleteTodo input db).2.WF := by
  obtain ⟨hb, hn⟩ := hwf
  constructor
  · intro t ht
    rw [deleteTodo_snd] at ht
    rw [deleteTodo_nextId]
    exact hb t (List.mem_of_mem_filter ht)
  · rw [deleteTodo_snd]
    exact List.Nodup.sublist (List.Sublist.map Todo.id
      (List.filter_sublist db.rows)) hn

theorem nextId_not_mem {db : DB} (hb : ∀ t ∈ db.rows, t.id < db.nextId) :
    db.nextId ∉ db.rows.map Todo.id := by
  intro hmem
  obtain ⟨s, hs, hid⟩ := List.mem_map.mp hmem
  exact absurd hid (hb s hs).ne

theorem WF_create (input : CreateTodoInput) (now : Nat) {db : DB}
    (hwf : db.WF) : (createTodo input now db).2.WF := by
  obtain ⟨hb, hn⟩ := hwf
  constructor
  · intro t ht
    rw [createTodo_snd_rows] at ht
    rw [createTodo_snd_nextId]
    rcases List.mem_append.mp ht with h | h
    · exact (hb t h).trans (lt_add_one db.nextId)
    · rw [List.mem_singleton.mp h, createTodo_fst]
      exact lt_add_one db.nextId
  · rw [createTodo_snd_rows, List.map_append]
    simp only [createTodo_fst, List.map_cons, List.map_nil]
    rw [List.nodup_append]
    exact ⟨hn, List.nodup_singleton _,
      by simpa using nextId_not_mem hb⟩

/-- Every reachable store state is well-formed. -/
theorem Reachable.wf {db : DB} (h : Reachable db) : db.WF := by
  induction h with
  | empty => exact WF_empty
  | create i now _ ih => exact WF_create i now ih
  | update i now _ ih => exact WF_update i now ih
  | delete i _ ih => exact WF_delete i ih

/-! ## Claims -/

/-- C1: for every valid update applied to a stored row with matching id
(the first such row, per `RETURNING`/`result[0]`), every field whose key
is absent from the input — `created_at` and `id` always, the three
optional fields when omitted — is unchanged in the returned (and stored)
row, every present field is replaced with exactly the supplied value, and
`updated_at` is set to the current time on every call, even when no field
besides `id` is supplied. -/
theorem updateTodo_frame (input : UpdateTodoInput) (now : Nat) (db : DB)
    (t : Todo)
    (h : db.rows.find? (fun r => decide (r.id = input.id)) = some t) :
    ∃ u, (updateTodo input now db).1 = some u ∧
      u ∈ (updateTodo input now db).2.rows ∧
      u.id = t.id ∧
      u.created_at = t.created_at ∧
      u.updated_at = now ∧
      (input.title = none → u.title = t.title) ∧
      (∀ s, input.title = some s → u.title = s) ∧
      (input.description = none → u.description = t.description) ∧
      (∀ d, input.description = some d → u.description = d) ∧
      (input.completed = none → u.completed = t.completed) ∧
      (∀ b, input.completed = some b → u.completed = b) := by
  have ht := List.mem_of_find?_eq_some h
  have htid : t.id = input.id := by simpa using List.find?_some h
  refine ⟨applyUpdate input now t, ?_, ?_, rfl, rfl, rfl,
    ?_, ?_, ?_, ?_, ?_, ?_⟩
  · rw [updateTodo_fst, h]
    rfl
  · rw [updateTodo_snd]
    exact List.mem_map.mpr ⟨t, ht, by rw [if_pos htid]⟩
  · intro h'
    simp [applyUpdate, h']
  · intro s h'
    simp [applyUpdate, h']
  · intro h'
    simp [applyUpdate, h']
  · intro d h'
    simp [applyUpdate, h']
  · intro h'
    simp [applyUpdate, h']
  · intro b h'
    simp [applyUpdate, h']

/-- C1 witness: a concrete one-row store, updating only the title. -/
theorem updateTodo_frame_witness :
    (({ rows := [⟨1, "a", some "d", false, 5, 5⟩], nextId := 2 } :
        DB).rows.find?
      (fun r => decide (r.id = (⟨1, some "b", none, none⟩ :
        UpdateTodoInput).id)) = some ⟨1, "a", some "d", false, 5, 5⟩) ∧
    (∃ u, (updateTodo ⟨1, some "b", none, none⟩ 9
        { rows := [⟨1, "a", some "d", false, 5, 5⟩], nextId := 2 }).1
        = some u ∧
      u ∈ (updateTodo ⟨1, some "b", none, none⟩ 9
        { rows := [⟨1, "a", some "d", false, 5, 5⟩], nextId := 2 }).2.rows ∧
      u.id = (⟨1, "a", some "d", false, 5, 5⟩ : Todo).id ∧
      u.created_at = (⟨1, "a", some "d", false, 5, 5⟩ : Todo).created_at ∧
      u.updated_at = 9 ∧
      ((⟨1, some "b", none, none⟩ : UpdateTodoInput).title = none →
        u.title = (⟨1, "a", some "d", false, 5, 5⟩ : Todo).title) ∧
      (∀ s, (⟨1, some "b", none, none⟩ : UpdateTodoInput).title = some s →
        u.title = s) ∧
      ((⟨1, some "b", none, none⟩ : UpdateTodoInput).description = none →
        u.description = (⟨1, "a", some "d", false, 5, 5⟩ :
          Todo).description) ∧
      (∀ d, (⟨1, some "b", none, none⟩ :
          UpdateTodoInput).description = some d → u.description = d) ∧
      ((⟨1, some "b", none, none⟩ : UpdateTodoInput).completed = none →
        u.completed = (⟨1, "a", some "d", false, 5, 5⟩ : Todo).completed) ∧
      (∀ b, (⟨1, some "b", none, none⟩ :
          UpdateTodoInput).completed = some b → u.completed = b)) :=
  ⟨rfl, updateTodo_frame ⟨1, some "b", none, none⟩ 9
    { rows := [⟨1, "a", some "d", false, 5, 5⟩], nextId := 2 }
    ⟨1, "a", some "d", false, 5, 5⟩ rfl⟩

/-- C2: on update, a `description` key present with value null clears the
stored description to null, while an input with no `description` key
leaves it unchanged; when the prior description is non-null the two
inputs produce different results. -/
theorem updateTodo_description_tristate (db : DB) (i : Int) (now : Nat)
    (t : Todo) (s : String)
    (h : db.rows.find? (fun r => decide (r.id = i)) = some t)
    (hd : t.description = some s) :
    (∃ u1, (updateTodo ⟨i, none, some none, none⟩ now db).1 = some u1 ∧
      u1.description = none) ∧
    (∃ u2, (updateTodo ⟨i, none, none, none⟩ now db).1 = some u2 ∧
      u2.description = some s) ∧
    (updateTodo ⟨i, none, some none, none⟩ now db).1 ≠
      (updateTodo ⟨i, none, none, none⟩ now db).1 := by
  have e1 : (updateTodo ⟨i, none, some none, none⟩ now db).1 =
      some (applyUpdate ⟨i, none, some none, none⟩ now t) := by
    rw [updateTodo_fst]
    rw [show ((⟨i, none, some none, none⟩ : UpdateTodoInput).id) = i
      from rfl, h]
    rfl
  have e2 : (updateTodo ⟨i, none, none, none⟩ now db).1 =
      some (applyUpdate ⟨i, none, none, none⟩ now t) := by
    rw [updateTodo_fst]
    rw [show ((⟨i, none, none, none⟩ : UpdateTodoInput).id) = i
      from rfl, h]
    rfl
  refine ⟨⟨_, e1, rfl⟩, ⟨_, e2, by simp [applyUpdate, hd]⟩, ?_⟩
  rw [e1, e2]
  intro heq
  have hdesc := congrArg (fun o => Option.map Todo.description o) heq
  simp [applyUpdate, hd] at hdesc

/-- C2 witness: a concrete store whose single row has a non-null
description. -/
theorem updateTodo_description_tristate_witness :
    (({ rows := [⟨1, "a", some "d", false, 5, 5⟩], nextId := 2 } :
        DB).rows.find? (fun r => decide (r.id = (1 : Int)))
      = some ⟨1, "a", some "d", false, 5, 5⟩) ∧
    ((⟨1, "a", some "d", false, 5, 5⟩ : Todo).description = some "d") ∧
    ((∃ u1, (updateTodo ⟨1, none, some none, none⟩ 9
        { rows := [⟨1, "a", some "d", false, 5, 5⟩], nextId := 2 }).1
        = some u1 ∧ u1.description = none) ∧
    (∃ u2, (updateTodo ⟨1, none, none, none⟩ 9
        { rows := [⟨1, "a", some "d", false, 5, 5⟩], nextId := 2 }).1
        = some u2 ∧ u2.description = some "d") ∧
    (updateTodo ⟨1, none, some none, none⟩ 9
        { rows := [⟨1, "a", some "d", false, 5, 5⟩], nextId := 2 }).1 ≠
      (updateTodo ⟨1, none, none, none⟩ 9
        { rows := [⟨1, "a", some "d", false, 5, 5⟩], nextId := 2 }).1) :=
  ⟨rfl, rfl, updateTodo_description_tristate
    { rows := [⟨1, "a", some "d", false, 5, 5⟩], nextId := 2 } 1 9
    ⟨1, "a", some "d", false, 5, 5⟩ "d" rfl rfl⟩

/-- C3: `getTodo {id}` returns the stored row whose id matches when one
exists (spec-modelled handler: first match in the table), and returns the
null not-found sentinel, not an error, exactly when no row has that id. -/
theorem getTodo_found_or_null (i : Int) (db : DB) :
    (∀ t, getTodo ⟨i⟩ db = some t → t ∈ db.rows ∧ t.id = i) ∧
    (getTodo ⟨i⟩ db = none ↔ ∀ t ∈ db.rows, t.id ≠ i) := by
  constructor
  · intro t h
    exact ⟨List.mem_of_find?_eq_some h, by simpa using List.find?_some h⟩
  · rw [show getTodo ⟨i⟩ db = db.rows.find? (fun t => decide (t.id = i))
      from rfl, List.find?_eq_none]
    simp

/-- C3 witness: a concrete one-row store, looked up at the stored id. -/
theorem getTodo_found_or_null_witness :
    (∀ t, getTodo ⟨1⟩
        { rows := [⟨1, "a", some "d", false, 5, 5⟩], nextId := 2 }
        = some t →
      t ∈ ({ rows := [⟨1, "a", some "d", false, 5, 5⟩], nextId := 2 } :
        DB).rows ∧ t.id = 1) ∧
    (getTodo ⟨1⟩
        { rows := [⟨1, "a", some "d", false, 5, 5⟩], nextId := 2 }
        = none ↔
      ∀ t ∈ ({ rows := [⟨1, "a", some "d", false, 5, 5⟩], nextId := 2 } :
        DB).rows, t.id ≠ 1) :=
  getTodo_found_or_null 1
    { rows := [⟨1, "a", some "d", false, 5, 5⟩], nextId := 2 }

/-- C4: on any well-formed store state, creating
`{title := "T", description := null}` and then getting the returned id
yields a row with title `"T"`, null description and `completed = false`. -/
theorem createTodo_getTodo_roundtrip (db : DB) (now : Nat)
    (h : db.WF) :
    ∃ u, getTodo ⟨(createTodo ⟨"T", none⟩ now db).1.id⟩
        (createTodo ⟨"T", none⟩ now db).2 = some u ∧
      u.title = "T" ∧ u.description = none ∧ u.completed = false := by
  obtain ⟨hb, -⟩ := h
  refine ⟨(createTodo ⟨"T", none⟩ now db).1, ?_, rfl, rfl, rfl⟩
  show (db.rows ++ [(createTodo ⟨"T", none⟩ now db).1]).find?
    (fun r => decide (r.id = (createTodo ⟨"T", none⟩ now db).1.id)) = _
  rw [List.find?_append]
  have h1 : db.rows.find?
      (fun r => decide (r.id = (createTodo ⟨"T", none⟩ now db).1.id))
      = none := by
    rw [List.find?_eq_none]
    intro x hx
    rw [createTodo_fst]
    simpa using (hb x hx).ne
  rw [h1]
  simp [List.find?_cons]

/-- C4 witness: the round trip on the empty store. -/
theorem createTodo_getTodo_roundtrip_witness :
    emptyDB.WF ∧
    ∃ u, getTodo ⟨(createTodo ⟨"T", none⟩ 7 emptyDB).1.id⟩
        (createTodo ⟨"T", none⟩ 7 emptyDB).2 = some u ∧
      u.title = "T" ∧ u.description = none ∧ u.completed = false := by
  have h : emptyDB.WF := by
    constructor <;> simp [emptyDB]
  exact ⟨h, createTodo_getTodo_roundtrip emptyDB 7 h⟩

theorem deleteTodo_fst_false (input : DeleteTodoInput) (db : DB) :
    (deleteTodo input db).1 = false ↔ ∀ t ∈ db.rows, t.id ≠ input.id := by
  rw [← Bool.not_eq_true, deleteTodo_fst]
  simp

/-- C5: for an id absent from the store, `updateTodo` returns null and
`deleteTodo` returns false (no error path); the first delete of an id
returns true exactly when a row was removed, and a second delete of the
same id returns false. -/
theorem missing_id_update_delete (i : Int) (db : DB) :
    ((∀ t ∈ db.rows, t.id ≠ i) →
      (∀ (input : UpdateTodoInput) (now : Nat), input.id = i →
        (updateTodo input now db).1 = none) ∧
      (deleteTodo ⟨i⟩ db).1 = false) ∧
    ((deleteTodo ⟨i⟩ db).1 = true ↔ ∃ t ∈ db.rows, t.id = i) ∧
    (deleteTodo ⟨i⟩ (deleteTodo ⟨i⟩ db).2).1 = false := by
  refine ⟨fun h => ⟨?_, ?_⟩, deleteTodo_fst ⟨i⟩ db, ?_⟩
  · intro input now hid
    rw [updateTodo_fst]
    have hn : db.rows.find? (fun t => decide (t.id = input.id)) = none := by
      rw [List.find?_eq_none]
      intro x hx
      simpa [hid] using h x hx
    rw [hn]
    rfl
  · rw [deleteTodo_fst_false]
    exact h
  · rw [deleteTodo_fst_false]
    intro t ht
    rw [deleteTodo_snd] at ht
    simpa using (List.mem_filter.mp ht).2

/-- C5 witness: a one-row store, deleting the stored id twice. -/
theorem missing_id_update_delete_witness :
    ((∀ t ∈ ({ rows := [⟨1, "a", some "d", false, 5, 5⟩], nextId := 2 } :
        DB).rows, t.id ≠ 1) →
      (∀ (input : UpdateTodoInput) (now : Nat), input.id = 1 →
        (updateTodo input now
          { rows := [⟨1, "a", some "d", false, 5, 5⟩], nextId := 2 }).1
          = none) ∧
      (deleteTodo ⟨1⟩
        { rows := [⟨1, "a", some "d", false, 5, 5⟩], nextId := 2 }).1
        = false) ∧
    ((deleteTodo ⟨1⟩
        { rows := [⟨1, "a", some "d", false, 5, 5⟩], nextId := 2 }).1
        = true ↔
      ∃ t ∈ ({ rows := [⟨1, "a", some "d", false, 5, 5⟩], nextId := 2 } :
        DB).rows, t.id = 1) ∧
    (deleteTodo ⟨1⟩ (deleteTodo ⟨1⟩
        { rows := [⟨1, "a", some "d", false, 5, 5⟩], nextId := 2 }).2).1
      = false :=
  missing_id_update_delete 1
    { rows := [⟨1, "a", some "d", false, 5, 5⟩], nextId := 2 }

instance : IsTotal Todo createdAtGe :=
  ⟨fun a b => le_total b.created_at a.created_at⟩

instance : IsTrans Todo createdAtGe :=
  ⟨fun _ _ _ hab hbc => le_trans hbc hab⟩

/-- C6: `getTodos` on the empty store returns the empty sequence; on any
store it returns a permutation of the stored rows (exactly N rows after
inserting N todos), ordered so that each returned row's `created_at` is
at least the `created_at` of every row that follows it — in particular of
the row immediately following it. -/
theorem getTodos_empty_and_ordered :
    getTodos emptyDB = [] ∧
    ∀ db : DB, (getTodos db).Perm db.rows ∧
      (getTodos db).length = db.rows.length ∧
      (getTodos db).Pairwise createdAtGe ∧
      (getTodos db).Chain' createdAtGe := by
  refine ⟨rfl, fun db => ?_⟩
  have hperm := List.perm_insertionSort createdAtGe db.rows
  have hsorted : List.Sorted createdAtGe (getTodos db) :=
    List.sorted_insertionSort createdAtGe db.rows
  exact ⟨hperm, hperm.length_eq, hsorted, List.Pairwise.chain' hsorted⟩

/-- C7: for every valid create input (spec-modelled handler), the
returned row has `completed = false` and `created_at = updated_at`, and
the store afterwards is the old rows plus exactly the returned row. -/
theorem createTodo_defaults (input : CreateTodoInput) (now : Nat)
    (db : DB) (_h : createTodoInputSchema input = true) :
    (createTodo input now db).1.completed = false ∧
    (createTodo input now db).1.created_at =
      (createTodo input now db).1.updated_at ∧
    (createTodo input now db).2.rows =
      db.rows ++ [(createTodo input now db).1] :=
  ⟨rfl, rfl, rfl⟩

/-- C7 witness: a concrete valid input on the empty store. -/
theorem createTodo_defaults_witness :
    createTodoInputSchema ⟨"T", none⟩ = true ∧
    ((createTodo ⟨"T", none⟩ 7 emptyDB).1.completed = false ∧
    (createTodo ⟨"T", none⟩ 7 emptyDB).1.created_at =
      (createTodo ⟨"T", none⟩ 7 emptyDB).1.updated_at ∧
    (createTodo ⟨"T", none⟩ 7 emptyDB).2.rows =
      emptyDB.rows ++ [(createTodo ⟨"T", none⟩ 7 emptyDB).1]) :=
  ⟨by decide, createTodo_defaults ⟨"T", none⟩ 7 emptyDB (by decide)⟩

/-- Store states reachable from a given state through any sequence of
handler calls (reflexive-transitive closure of the three mutators). -/
inductive ReachableFrom : DB → DB → Prop
  | refl (db : DB) : ReachableFrom db db
  | create (i : CreateTodoInput) (now : Nat) {a b : DB} :
      ReachableFrom a b → ReachableFrom a (createTodo i now b).2
  | update (i : UpdateTodoInput) (now : Nat) {a b : DB} :
      ReachableFrom a b → ReachableFrom a (updateTodo i now b).2
  | delete (i : DeleteTodoInput) {a b : DB} :
      ReachableFrom a b → ReachableFrom a (deleteTodo i b).2

/-- The serial counter never decreases: update and delete preserve it,
create advances it, so ids are never reused — not even after the row that
carried one is deleted. -/
theorem ReachableFrom.nextId_mono {a b : DB} (h : ReachableFrom a b) :
    a.nextId ≤ b.nextId := by
  induction h with
  | refl db => exact le_refl db.nextId
  | create i now _ ih =>
    rw [createTodo_snd_nextId]
    exact ih.trans (le_of_lt (lt_add_one _))
  | update i now _ ih =>
    rw [updateTodo_nextId]
    exact ih
  | delete i _ ih =>
    rw [deleteTodo_nextId]
    exact ih

/-- C8: every reachable store state holds at most one row per id (any two
stored rows with equal ids are the same row), and any two distinct
`createTodo` calls — the second made in any state reached from the first
call's result by any sequence of operations, including deletes of the
first row — return rows with distinct ids. -/
theorem ids_unique (db : DB) (h : Reachable db) :
    (∀ t1 ∈ db.rows, ∀ t2 ∈ db.rows, t1.id = t2.id → t1 = t2) ∧
    (∀ (i1 i2 : CreateTodoInput) (n1 n2 : Nat) (db2 : DB),
      ReachableFrom (createTodo i1 n1 db).2 db2 →
      (createTodo i1 n1 db).1.id ≠ (createTodo i2 n2 db2).1.id) := by
  constructor
  · intro t1 h1 t2 h2 hid
    exact List.inj_on_of_nodup_map h.wf.2 h1 h2 hid
  · intro i1 i2 n1 n2 db2 hr
    have hm := hr.nextId_mono
    rw [createTodo_snd_nextId] at hm
    intro he
    have he' : db.nextId = db2.nextId := he
    omega

/-- C8 witness: the theorem instantiated at the empty store, which is
reachable. -/
theorem ids_unique_witness :
    Reachable emptyDB ∧
    ((∀ t1 ∈ emptyDB.rows, ∀ t2 ∈ emptyDB.rows, t1.id = t2.id → t1 = t2) ∧
    (∀ (i1 i2 : CreateTodoInput) (n1 n2 : Nat) (db2 : DB),
      ReachableFrom (createTodo i1 n1 emptyDB).2 db2 →
      (createTodo i1 n1 emptyDB).1.id ≠ (createTodo i2 n2 db2).1.id)) :=
  ⟨Reachable.empty, ids_unique emptyDB Reachable.empty⟩

/-- C9: the validation layer rejects an empty-string title on create and
on update (when the key is present), and a store whose rows all have
non-empty titles keeps that property across any validated `createTodo` or
`updateTodo` call — so those operations never persist an empty title. -/
theorem empty_title_never_persisted :
    (∀ d, createTodoInputSchema ⟨"", d⟩ = false) ∧
    (∀ i : UpdateTodoInput, i.title = some "" →
      updateTodoInputSchema i = false) ∧
    (∀ (db : DB) (now : Nat) (ci : CreateTodoInput), NoEmptyTitles db →
      createTodoInputSchema ci = true →
      NoEmptyTitles (createTodo ci now db).2) ∧
    (∀ (db : DB) (now : Nat) (ui : UpdateTodoInput), NoEmptyTitles db →
      updateTodoInputSchema ui = true →
      NoEmptyTitles (updateTodo ui now db).2) := by
  refine ⟨fun d => rfl, ?_, ?_, ?_⟩
  · intro i h
    simp [updateTodoInputSchema, h]
  · intro db now ci hne hv
    intro t ht
    rw [createTodo_snd_rows] at ht
    rcases List.mem_append.mp ht with h | h
    · exact hne t h
    · rw [List.mem_singleton.mp h, createTodo_fst]
      have hlen : 1 ≤ ci.title.length := by
        simpa [createTodoInputSchema] using hv
      intro he
      have he' : ci.title = "" := he
      rw [he'] at hlen
      exact absurd hlen (by decide)
  · intro db now ui hne hv
    intro t ht
    rw [updateTodo_snd] at ht
    obtain ⟨s, hs, rfl⟩ := List.mem_map.mp ht
    by_cases h : s.id = ui.id
    · rw [if_pos h]
      show (applyUpdate ui now s).title ≠ ""
      cases hti : ui.title with
      | none => simpa [applyUpdate, hti] using hne s hs
      | some v =>
        have hlen : 1 ≤ v.length := by
          simpa [updateTodoInputSchema, hti] using hv
        simp only [applyUpdate, hti]
        intro he
        rw [he] at hlen
        exact absurd hlen (by decide)
    · rw [if_neg h]
      exact hne s hs

/-- C9 witness: the empty title is rejected on both schemas, and a
validated create on the empty store yields a store with no empty
titles. -/
theorem empty_title_never_persisted_witness :
    createTodoInputSchema ⟨"", none⟩ = false ∧
    updateTodoInputSchema ⟨1, some "", none, none⟩ = false ∧
    NoEmptyTitles emptyDB ∧ createTodoInputSchema ⟨"T", none⟩ = true ∧
    NoEmptyTitles (createTodo ⟨"T", none⟩ 7 emptyDB).2 := by
  have hne : NoEmptyTitles emptyDB := by
    intro t ht
    simp [emptyDB] at ht
  exact ⟨empty_title_never_persisted.1 none,
    empty_title_never_persisted.2.1 ⟨1, some "", none, none⟩ rfl,
    hne, by decide,
    empty_title_never_persisted.2.2.1 emptyDB 7 ⟨"T", none⟩ hne (by decide)⟩

/-- Under distinct stored ids, at most one row matches the deleted id
(the SQL `RETURNING` set of the delete has length at most 1). -/
theorem matching_rows_le_one (i : Int) :
    ∀ l : List Todo, (l.map Todo.id).Nodup →
      (l.filter (fun t => decide (t.id = i))).length ≤ 1 := by
  intro l
  induction l with
  | nil =>
    intro _
    simp
  | cons a l ih =>
    intro hnd
    rw [List.map_cons, List.nodup_cons] at hnd
    obtain ⟨hna, hnd⟩ := hnd
    by_cases h : a.id = i
    · have hnil : l.filter (fun t => decide (t.id = i)) = [] := by
        rw [List.filter_eq_nil_iff]
        intro x hx
        simp only [decide_eq_true_iff]
        intro hxi
        exact hna (by
          rw [h, ← hxi]
          exact List.mem_map_of_mem Todo.id hx)
      simp [h, hnil]
    · simpa [h] using ih hnd

/-- C10: `deleteTodo {id}` removes at most the single row whose id
matches: the remaining rows are a sublist of the old ones, every row with
a different id survives with all fields unchanged, every removed row had
the matching id, and (with the store's distinct-id constraint) at most
one row is removed. -/
theorem deleteTodo_frame (input : DeleteTodoInput) (db : DB) :
    List.Sublist (deleteTodo input db).2.rows db.rows ∧
    (∀ t ∈ db.rows, t.id ≠ input.id →
      t ∈ (deleteTodo input db).2.rows) ∧
    (∀ t ∈ db.rows, t ∉ (deleteTodo input db).2.rows →
      t.id = input.id) ∧
    ((db.rows.map Todo.id).Nodup →
      db.rows.length ≤ (deleteTodo input db).2.rows.length + 1) := by
  have hmem : ∀ t ∈ db.rows, t.id ≠ input.id →
      t ∈ (deleteTodo input db).2.rows := by
    intro t ht h
    rw [deleteTodo_snd]
    exact List.mem_filter.mpr ⟨ht, by simpa using h⟩
  refine ⟨?_, hmem, ?_, ?_⟩
  · rw [deleteTodo_snd]
    exact List.filter_sublist db.rows
  · intro t ht hnot
    by_contra hne
    exact hnot (hmem t ht hne)
  · intro hnd
    have hsplit := List.length_eq_length_filter_add
      (l := db.rows) (fun t => decide (t.id = input.id))
    have hfeq : db.rows.filter (fun t => !decide (t.id = input.id))
        = (deleteTodo input db).2.rows := by
      rw [deleteTodo_snd]
      apply List.filter_congr
      intro x _
      simp [decide_not]
    rw [hfeq] at hsplit
    have hle := matching_rows_le_one input.id db.rows hnd
    omega

/-- C10 witness: a two-row store, deleting one id. -/
theorem deleteTodo_frame_witness :
    List.Sublist (deleteTodo ⟨1⟩
        { rows := [⟨1, "a", some "d", false, 5, 5⟩,
          ⟨2, "b", none, true, 6, 6⟩], nextId := 3 }).2.rows
      ({ rows := [⟨1, "a", some "d", false, 5, 5⟩,
        ⟨2, "b", none, true, 6, 6⟩], nextId := 3 } : DB).rows ∧
    (∀ t ∈ ({ rows := [⟨1, "a", some "d", false, 5, 5⟩,
        ⟨2, "b", none, true, 6, 6⟩], nextId := 3 } : DB).rows,
      t.id ≠ 1 → t ∈ (deleteTodo ⟨1⟩
        { rows := [⟨1, "a", some "d", false, 5, 5⟩,
          ⟨2, "b", none, true, 6, 6⟩], nextId := 3 }).2.rows) ∧
    (∀ t ∈ ({ rows := [⟨1, "a", some "d", false, 5, 5⟩,
        ⟨2, "b", none, true, 6, 6⟩], nextId := 3 } : DB).rows,
      t ∉ (deleteTodo ⟨1⟩
        { rows := [⟨1, "a", some "d", false, 5, 5⟩,
          ⟨2, "b", none, true, 6, 6⟩], nextId := 3 }).2.rows →
      t.id = 1) ∧
    ((({ rows := [⟨1, "a", some "d", false, 5, 5⟩,
        ⟨2, "b", none, true, 6, 6⟩], nextId := 3 } : DB).rows.map
        Todo.id).Nodup →
      ({ rows := [⟨1, "a", some "d", false, 5, 5⟩,
        ⟨2, "b", none, true, 6, 6⟩], nextId := 3 } : DB).rows.length ≤
        (deleteTodo ⟨1⟩
          { rows := [⟨1, "a", some "d", false, 5, 5⟩,
            ⟨2, "b", none, true, 6, 6⟩], nextId := 3 }).2.rows.length
          + 1) :=
  deleteTodo_frame ⟨1⟩
    { rows := [⟨1, "a", some "d", false, 5, 5⟩,
      ⟨2, "b", none, true, 6, 6⟩], nextId := 3 }
